import Mathlib

/-!
Verification development for the delta-rs longitudinal benchmarking core
(`delta_bench_longitudinal`): the durable result store (`store.py`), the
matrix scheduler (`matrix_runner.py`) and the trend analyzer
(`reporting.py`), shallowly embedded in Lean.

Modelling conventions:
* Python floats are modelled as exact rationals (`ℚ`); every numeric
  comparison exercised by the theorems is exact in both semantics.
* JSON scalar passthrough metadata values are modelled as `Option String`.
* SHA-256 digests are modelled by an injective encoding: the digest of a
  payload is the payload value itself, and a run id is the identity record
  that `_run_id` serialises and hashes.  Hash determinism (equal input,
  equal digest) is what the claims use; collision-freeness is idealised.
* Filesystem effects (wall-clock timestamps, stat results) are passed in
  explicitly as environment parameters.
* `math.erf`, `math.sqrt` and float string formatting are external library
  functions; they enter the embedding as function parameters.
-/

namespace DeltaBench

/-! ## Result store: data model (store.py) -/

/-- One entry of a case's `samples` list; the `elapsed_ms` key may be absent
(`store.py` line 90 filters on key presence). -/
structure Sample where
  elapsed_ms : Option ℚ
deriving DecidableEq, Repr

/-- The `failure` object of a case (`store.py` line 92). -/
structure CaseFailure where
  message : Option String
deriving DecidableEq, Repr

/-- One element of the payload's `cases` list.  The source field `case` is a
Lean keyword, so it is embedded as `caseName`. -/
structure BenchCase where
  caseName : Option String
  success : Bool
  samples : List Sample
  failure : Option CaseFailure
deriving DecidableEq, Repr

/-- The payload `context` object: environment / reproducibility metadata
flattened into rows by `_normalize_case_row` (`store.py` lines 100-129). -/
structure Context where
  created_at : Option String
  label : Option String
  git_sha : Option String
  host : Option String
  suite : Option String
  scale : Option String
  iterations : Option String
  warmup : Option String
  image_version : Option String
  hardening_profile_id : Option String
  hardening_profile_sha256 : Option String
  cpu_model : Option String
  cpu_microcode : Option String
  kernel : Option String
  boot_params : Option String
  cpu_steal_pct : Option String
  numa_topology : Option String
  egress_policy_sha256 : Option String
  run_mode : Option String
  maintenance_window_id : Option String
deriving DecidableEq, Repr

/-- A parsed raw result payload (`{"context": ..., "cases": [...]}`). -/
structure Payload where
  context : Context
  cases : List BenchCase
deriving DecidableEq, Repr

/-- The identity record serialised and hashed by `_run_id`
(`store.py` lines 162-170).  The `payload_sha256` content digest is
modelled as the canonical payload value (see header). -/
structure RunId where
  revision : String
  commit_timestamp : String
  created_at : Option String
  suite : Option String
  scale : Option String
  label : Option String
  payload_sha256 : Payload
deriving DecidableEq, Repr

/-- `_run_id` (`store.py` lines 152-172): a deterministic function of the
revision, commit timestamp, context identity fields and the payload content
digest.  Note that the source file path is not an input. -/
def runIdOf (revision commit_timestamp : String) (context : Context)
    (payload : Payload) : RunId :=
  { revision := revision
    commit_timestamp := commit_timestamp
    created_at := context.created_at
    suite := context.suite
    scale := context.scale
    label := context.label
    payload_sha256 := payload }

/-- One normalized row of `rows.jsonl` (`_normalize_case_row`,
`store.py` lines 94-131). -/
structure Row where
  schema_version : Nat
  run_id : RunId
  ingested_at : String
  revision : String
  revision_commit_timestamp : String
  benchmark_created_at : Option String
  label : Option String
  git_sha : Option String
  host : Option String
  suite : Option String
  scale : Option String
  iterations : Option String
  warmup : Option String
  caseName : Option String
  success : Bool
  failure_reason : Option String
  sample_count : Nat
  sample_values_ms : Option (List ℚ)
  best_ms : Option ℚ
  min_ms : Option ℚ
  max_ms : Option ℚ
  mean_ms : Option ℚ
  median_ms : Option ℚ
  image_version : Option String
  hardening_profile_id : Option String
  hardening_profile_sha256 : Option String
  cpu_model : Option String
  cpu_microcode : Option String
  kernel : Option String
  boot_params : Option String
  cpu_steal_pct : Option String
  numa_topology : Option String
  egress_policy_sha256 : Option String
  run_mode : Option String
  maintenance_window_id : Option String
  source_result_path : String
deriving DecidableEq, Repr

/-- Insert into a `≤`-sorted list of rationals, keeping it sorted. -/
def insertLeQ (x : ℚ) : List ℚ → List ℚ
  | [] => [x]
  | y :: ys => if x ≤ y then x :: y :: ys else y :: insertLeQ x ys

/-- Ascending sort on rationals (insertion sort). -/
def sortQ : List ℚ → List ℚ
  | [] => []
  | x :: xs => insertLeQ x (sortQ xs)

/-- `statistics.median`: middle value of the sorted list, or the average of
the two middle values.  The source raises on an empty list; every call site
guards non-emptiness, so the empty case here returns an arbitrary `0`. -/
def median (l : List ℚ) : ℚ :=
  let s := sortQ l
  let n := s.length
  if n % 2 = 1 then s.getD (n / 2) 0
  else (s.getD (n / 2 - 1) 0 + s.getD (n / 2) 0) / 2

/-- Minimum of a non-empty rational list (`min(samples)`). -/
def minQ (x : ℚ) (xs : List ℚ) : ℚ := xs.foldl min x

/-- Maximum of a non-empty rational list (`max(samples)`). -/
def maxQ (x : ℚ) (xs : List ℚ) : ℚ := xs.foldl max x

/-- Result record of `_elapsed_metrics` (`store.py` lines 134-149). -/
structure ElapsedMetrics where
  best_ms : Option ℚ
  min_ms : Option ℚ
  max_ms : Option ℚ
  mean_ms : Option ℚ
  median_ms : Option ℚ
deriving DecidableEq, Repr

/-- `_elapsed_metrics`: per-case derived statistics over elapsed samples. -/
def elapsed_metrics (samples : List ℚ) : ElapsedMetrics :=
  match samples with
  | [] => ⟨none, none, none, none, none⟩
  | x :: xs =>
      ⟨some (minQ x xs), some (minQ x xs), some (maxQ x xs),
        some ((x :: xs).sum / (x :: xs).length), some (median (x :: xs))⟩

/-- `_normalize_case_row` (`store.py` lines 79-131). -/
def normalize_case_row (run_id : RunId) (ingested_at revision commit_timestamp : String)
    (context : Context) (c : BenchCase) (source : String) : Row :=
  let elapsed := c.samples.filterMap (·.elapsed_ms)
  let metrics := elapsed_metrics elapsed
  let failure := c.failure.getD ⟨none⟩
  { schema_version := 1
    run_id := run_id
    ingested_at := ingested_at
    revision := revision
    revision_commit_timestamp := commit_timestamp
    benchmark_created_at := context.created_at
    label := context.label
    git_sha := context.git_sha
    host := context.host
    suite := context.suite
    scale := context.scale
    iterations := context.iterations
    warmup := context.warmup
    caseName := c.caseName
    success := c.success
    failure_reason := failure.message
    sample_count := elapsed.length
    sample_values_ms := some elapsed
    best_ms := metrics.best_ms
    min_ms := metrics.min_ms
    max_ms := metrics.max_ms
    mean_ms := metrics.mean_ms
    median_ms := metrics.median_ms
    image_version := context.image_version
    hardening_profile_id := context.hardening_profile_id
    hardening_profile_sha256 := context.hardening_profile_sha256
    cpu_model := context.cpu_model
    cpu_microcode := context.cpu_microcode
    kernel := context.kernel
    boot_params := context.boot_params
    cpu_steal_pct := context.cpu_steal_pct
    numa_topology := context.numa_topology
    egress_policy_sha256 := context.egress_policy_sha256
    run_mode := context.run_mode
    maintenance_window_id := context.maintenance_window_id
    source_result_path := source }

/-! ## Result store: on-disk state and operations (store.py) -/

/-- One physical line of `rows.jsonl`: blank, JSON-malformed, or a row.
Blank lines are skipped silently by every reader; malformed lines are
skipped by `_scan_row_run_ids` and counted by the reporter's `_load_rows`. -/
inductive RowLine where
  | blank
  | malformed
  | row (r : Row)
deriving DecidableEq, Repr

/-- A stat fingerprint of the rows file: `st_mtime_ns` and `st_size`.
The seconds-resolution `st_mtime` used by the legacy index branch is
modelled by the nanosecond value (a monotone view of the same clock). -/
structure FileStat where
  st_mtime_ns : Int
  st_size : Nat
deriving DecidableEq, Repr

/-- The rows append log (`rows.jsonl`): its lines and its current stat. -/
structure RowsFile where
  lines : List RowLine
  stat : FileStat
deriving DecidableEq, Repr

/-- The durable index (`index.json`): known run ids, the recorded rows-file
fingerprint (present only when both `rows_mtime_ns` and `rows_size` are
ints), and the index file's own mtime (read by the legacy branch of
`_load_index`).  A JSON-malformed index file behaves in `_load_index`
exactly like `run_ids = [], fingerprint = none` and is represented so. -/
structure IndexFile where
  run_ids : List RunId
  rows_fingerprint : Option FileStat
  self_mtime_ns : Int
deriving DecidableEq, Repr

/-- The store directory: `rows.jsonl` and `index.json`, each possibly
absent. -/
structure StoreState where
  rows_file : Option RowsFile
  index_file : Option IndexFile
deriving DecidableEq, Repr

/-- A store directory with neither file. -/
def emptyStore : StoreState := ⟨none, none⟩

/-- `_scan_row_run_ids` (`store.py` lines 226-239): run ids of all parseable
rows; blank and malformed lines are skipped.  (The source additionally
checks that `run_id` is a non-empty JSON string, a guard the typed row
cannot fail.) -/
def scan_row_run_ids (lines : List RowLine) : List RunId :=
  lines.filterMap fun l =>
    match l with
    | .row r => some r.run_id
    | _ => none

/-- `_load_index` (`store.py` lines 183-223): the set of ingested run ids,
reconciled against the rows file when the recorded fingerprint is missing
or stale.  The set union `run_ids.update(...)` is modelled as list append
with duplicate filtering (membership-equivalent). -/
def load_index (s : StoreState) : List RunId :=
  let run_ids : List RunId :=
    match s.index_file with
    | none => []
    | some idx => idx.run_ids
  let fingerprint : Option FileStat :=
    match s.index_file with
    | none => none
    | some idx => idx.rows_fingerprint
  match s.rows_file with
  | none => run_ids
  | some rf =>
      let should_reconcile : Bool :=
        match fingerprint with
        | some recorded => decide (¬ (rf.stat.st_mtime_ns = recorded.st_mtime_ns ∧
            rf.stat.st_size = recorded.st_size))
        | none =>
            match s.index_file with
            | some idx => decide (idx.self_mtime_ns < rf.stat.st_mtime_ns)
            | none => true
      if should_reconcile then
        run_ids ++ (scan_row_run_ids rf.lines).filter (fun r => decide (r ∉ run_ids))
      else run_ids

/-- The value returned by `ingest_benchmark_result`. -/
structure IngestResult where
  run_id : RunId
  rows_appended : Nat
  deduped : Bool
deriving DecidableEq, Repr

/-- Ambient effects observed during one ingest call: the wall-clock
`ingested_at` timestamp, the rows-file stat right after the append (which
`_save_index` records as the fingerprint), and the rewritten index file's
own mtime. -/
structure IngestEnv where
  ingested_at : String
  rows_stat_after_append : FileStat
  index_mtime_ns : Int
deriving DecidableEq, Repr

/-- `ingest_benchmark_result` (`store.py` lines 22-64), as a transition on
the store directory state.  The whole body runs under the directory lock;
the model is the serialised transition.  `_append_rows` appends one line
per normalized row; `_save_index` stores the reconciled set plus the new
run id and records the rows file's current stat as the fingerprint. -/
def ingest (s : StoreState) (payload : Payload)
    (revision commit_timestamp source : String) (env : IngestEnv) :
    StoreState × IngestResult :=
  let rid := runIdOf revision commit_timestamp payload.context payload
  let index := load_index s
  if rid ∈ index then (s, ⟨rid, 0, true⟩)
  else
    let rows := payload.cases.map fun c =>
      normalize_case_row rid env.ingested_at revision commit_timestamp
        payload.context c source
    let oldLines : List RowLine :=
      match s.rows_file with
      | none => []
      | some rf => rf.lines
    let rf' : RowsFile := ⟨oldLines ++ rows.map .row, env.rows_stat_after_append⟩
    let idx' : IndexFile := ⟨index ++ [rid], some rf'.stat, env.index_mtime_ns⟩
    (⟨some rf', some idx'⟩, ⟨rid, rows.length, false⟩)

/-- Number of row lines in the store's rows file (`load_longitudinal_rows`
row count; blank/malformed lines excluded). -/
def storeRowCount (s : StoreState) : Nat :=
  match s.rows_file with
  | none => 0
  | some rf => rf.lines.countP fun l =>
      match l with
      | .row _ => true
      | _ => false

/-- Arguments of one `ingest_benchmark_result` call (including ambient
effects). -/
structure IngestCall where
  payload : Payload
  revision : String
  commit_timestamp : String
  source : String
  env : IngestEnv

/-- A sequence of ingest calls against one store directory, returning the
final state and each call's result. -/
def ingestTrace : StoreState → List IngestCall → StoreState × List IngestResult
  | s, [] => (s, [])
  | s, c :: cs =>
      let step := ingest s c.payload c.revision c.commit_timestamp c.source c.env
      let rest := ingestTrace step.1 cs
      (rest.1, step.2 :: rest.2)

/-! ## Result store: lemmas -/

/-- Does this ingest result record an actual append of rows for `rid`? -/
def appendsFor (rid : RunId) (r : IngestResult) : Bool :=
  decide (r.run_id = rid) && !r.deduped

theorem ingest_dedup_of_mem (s : StoreState) (payload : Payload)
    (revision commit_timestamp source : String) (env : IngestEnv)
    (h : runIdOf revision commit_timestamp payload.context payload ∈ load_index s) :
    ingest s payload revision commit_timestamp source env =
      (s, ⟨runIdOf revision commit_timestamp payload.context payload, 0, true⟩) := by
  simp [ingest, h]

theorem load_index_ingest_of_not_mem (s : StoreState) (payload : Payload)
    (revision commit_timestamp source : String) (env : IngestEnv)
    (h : runIdOf revision commit_timestamp payload.context payload ∉ load_index s) :
    load_index (ingest s payload revision commit_timestamp source env).1 =
      load_index s ++ [runIdOf revision commit_timestamp payload.context payload] := by
  simp only [ingest, if_neg h]
  simp [load_index]

theorem mem_load_index_ingest (s : StoreState) (payload : Payload)
    (revision commit_timestamp source : String) (env : IngestEnv) :
    runIdOf revision commit_timestamp payload.context payload ∈
      load_index (ingest s payload revision commit_timestamp source env).1 := by
  by_cases h : runIdOf revision commit_timestamp payload.context payload ∈ load_index s
  · rw [ingest_dedup_of_mem s payload revision commit_timestamp source env h]
    exact h
  · rw [load_index_ingest_of_not_mem s payload revision commit_timestamp source env h]
    simp

theorem load_index_mono (s : StoreState) (payload : Payload)
    (revision commit_timestamp source : String) (env : IngestEnv) (r : RunId)
    (h : r ∈ load_index s) :
    r ∈ load_index (ingest s payload revision commit_timestamp source env).1 := by
  by_cases hm : runIdOf revision commit_timestamp payload.context payload ∈ load_index s
  · rw [ingest_dedup_of_mem s payload revision commit_timestamp source env hm]
    exact h
  · rw [load_index_ingest_of_not_mem s payload revision commit_timestamp source env hm]
    exact List.mem_append_left _ h

theorem trace_no_append_of_mem (rid : RunId) :
    ∀ (calls : List IngestCall) (s : StoreState), rid ∈ load_index s →
      ((ingestTrace s calls).2.countP (appendsFor rid)) = 0
  | [], s, _ => rfl
  | c :: cs, s, h => by
      simp only [ingestTrace, List.countP_cons]
      by_cases hm : runIdOf c.revision c.commit_timestamp c.payload.context c.payload ∈
          load_index s
      · rw [ingest_dedup_of_mem s c.payload c.revision c.commit_timestamp c.source c.env hm]
        have := trace_no_append_of_mem rid cs s h
        simp [appendsFor, this]
      · have hne : (ingest s c.payload c.revision c.commit_timestamp c.source c.env).2.run_id ≠
            rid := by
          simp only [ingest, if_neg hm]
          intro heq
          exact hm (heq ▸ h)
        have hmono := load_index_mono s c.payload c.revision c.commit_timestamp c.source c.env
          rid h
        have := trace_no_append_of_mem rid cs _ hmono
        simp [appendsFor, this, hne]

theorem trace_appends_at_most_once (rid : RunId) :
    ∀ (calls : List IngestCall) (s : StoreState),
      ((ingestTrace s calls).2.countP (appendsFor rid)) ≤ 1
  | [], _ => by simp [ingestTrace]
  | c :: cs, s => by
      simp only [ingestTrace, List.countP_cons]
      by_cases hm : runIdOf c.revision c.commit_timestamp c.payload.context c.payload ∈
          load_index s
      · rw [ingest_dedup_of_mem s c.payload c.revision c.commit_timestamp c.source c.env hm]
        have := trace_appends_at_most_once rid cs s
        simp only [appendsFor]
        simpa using this
      · by_cases hr : runIdOf c.revision c.commit_timestamp c.payload.context c.payload = rid
        · have hmem : rid ∈ load_index
              (ingest s c.payload c.revision c.commit_timestamp c.source c.env).1 :=
            hr ▸ mem_load_index_ingest s c.payload c.revision c.commit_timestamp c.source c.env
          have hzero := trace_no_append_of_mem rid cs _ hmem
          rw [hzero]
          split <;> simp
        · have hne : (ingest s c.payload c.revision c.commit_timestamp c.source c.env).2.run_id ≠
              rid := by
            simp only [ingest, if_neg hm]
            exact hr
          have := trace_appends_at_most_once rid cs
            (ingest s c.payload c.revision c.commit_timestamp c.source c.env).1
          simp only [appendsFor, hne]
          simpa [appendsFor] using this

/-- Claim C1: ingesting a byte-identical payload twice with the same
revision and commit timestamp is idempotent — the second call returns
`rows_appended = 0` and `deduped = true`, leaves the store (and hence the
rows file's row count) unchanged, and yields the same run id as the first
call even when the source file paths differ; moreover over any sequence of
ingest calls a given run id's rows are appended at most once, ever. -/
theorem C1_ingest_idempotent (s : StoreState) (payload : Payload)
    (revision commit_timestamp source₁ source₂ : String) (env₁ env₂ : IngestEnv)
    (calls : List IngestCall) (rid : RunId) :
    (ingest (ingest s payload revision commit_timestamp source₁ env₁).1
        payload revision commit_timestamp source₂ env₂).2.rows_appended = 0
    ∧ (ingest (ingest s payload revision commit_timestamp source₁ env₁).1
        payload revision commit_timestamp source₂ env₂).2.deduped = true
    ∧ (ingest (ingest s payload revision commit_timestamp source₁ env₁).1
        payload revision commit_timestamp source₂ env₂).1 =
      (ingest s payload revision commit_timestamp source₁ env₁).1
    ∧ storeRowCount (ingest (ingest s payload revision commit_timestamp source₁ env₁).1
        payload revision commit_timestamp source₂ env₂).1 =
      storeRowCount (ingest s payload revision commit_timestamp source₁ env₁).1
    ∧ (ingest (ingest s payload revision commit_timestamp source₁ env₁).1
        payload revision commit_timestamp source₂ env₂).2.run_id =
      (ingest s payload revision commit_timestamp source₁ env₁).2.run_id
    ∧ ((ingestTrace s calls).2.countP (appendsFor rid)) ≤ 1 := by
  have hmem := mem_load_index_ingest s payload revision commit_timestamp source₁ env₁
  have hded := ingest_dedup_of_mem
    (ingest s payload revision commit_timestamp source₁ env₁).1
    payload revision commit_timestamp source₂ env₂ hmem
  have hrid₁ : (ingest s payload revision commit_timestamp source₁ env₁).2.run_id =
      runIdOf revision commit_timestamp payload.context payload := by
    by_cases hm : runIdOf revision commit_timestamp payload.context payload ∈ load_index s
    · rw [ingest_dedup_of_mem s payload revision commit_timestamp source₁ env₁ hm]
    · simp [ingest, if_neg hm]
  refine ⟨?_, ?_, ?_, ?_, ?_, trace_appends_at_most_once rid calls s⟩ <;>
    (rw [hded]; try simp [hrid₁])

theorem mem_union_scan (run_ids scans : List RunId) (r : RunId) (h : r ∈ scans) :
    r ∈ run_ids ++ scans.filter (fun x => decide (x ∉ run_ids)) := by
  by_cases hm : r ∈ run_ids
  · exact List.mem_append_left _ hm
  · refine List.mem_append_right _ ?_
    rw [List.mem_filter]
    exact ⟨h, by simpa using hm⟩

/-- Claim C2 (amended): a full rescan of the rows file — reconstructing
every run id present in it, so that a subsequent ingest of a payload whose
run id already has rows dedupes and appends nothing — happens when the
index file is missing, when its recorded fingerprint does not match the
rows file's current stat, or when no fingerprint was recorded and the rows
file's mtime is greater than the index file's mtime.  (When no fingerprint
was recorded but the index file is at least as new as the rows file, the
code deliberately skips the scan — see `C2_counterexample`.) -/
theorem C2_index_recovery (s : StoreState) (rf : RowsFile)
    (hrows : s.rows_file = some rf)
    (hcase :
      s.index_file = none
      ∨ (∃ idx fp, s.index_file = some idx ∧ idx.rows_fingerprint = some fp ∧
          ¬ (rf.stat.st_mtime_ns = fp.st_mtime_ns ∧ rf.stat.st_size = fp.st_size))
      ∨ (∃ idx, s.index_file = some idx ∧ idx.rows_fingerprint = none ∧
          idx.self_mtime_ns < rf.stat.st_mtime_ns)) :
    (∀ r ∈ scan_row_run_ids rf.lines, r ∈ load_index s)
    ∧ ∀ (payload : Payload) (revision commit_timestamp source : String) (env : IngestEnv),
        runIdOf revision commit_timestamp payload.context payload ∈
            scan_row_run_ids rf.lines →
          (ingest s payload revision commit_timestamp source env).2.deduped = true
          ∧ (ingest s payload revision commit_timestamp source env).2.rows_appended = 0
          ∧ (ingest s payload revision commit_timestamp source env).1 = s := by
  have hscan : ∀ r ∈ scan_row_run_ids rf.lines, r ∈ load_index s := by
    rcases hcase with hnone | ⟨idx, fp, hidx, hfp, hne⟩ | ⟨idx, hidx, hfp, hlt⟩
    · intro r hr
      simp only [load_index, hrows, hnone]
      exact mem_union_scan [] _ r hr
    · intro r hr
      simp only [load_index, hrows, hidx, hfp]
      rw [if_pos (decide_eq_true hne)]
      exact mem_union_scan idx.run_ids _ r hr
    · intro r hr
      simp only [load_index, hrows, hidx, hfp]
      rw [if_pos (decide_eq_true hlt)]
      exact mem_union_scan idx.run_ids _ r hr
  refine ⟨hscan, ?_⟩
  intro payload revision commit_timestamp source env hmem
  rw [ingest_dedup_of_mem s payload revision commit_timestamp source env
    (hscan _ hmem)]
  exact ⟨rfl, rfl, rfl⟩

/-- A context with every metadata field absent. -/
def emptyContext : Context :=
  ⟨none, none, none, none, none, none, none, none, none, none,
    none, none, none, none, none, none, none, none, none, none⟩

def c2Context : Context :=
  { emptyContext with
    created_at := some "t0", suite := some "su", scale := some "sc", label := some "lb" }

def c2Payload : Payload := ⟨c2Context, [⟨some "c1", true, [⟨some 5⟩], none⟩]⟩

def c2Rid : RunId := runIdOf "rev1" "ts1" c2Context c2Payload

def c2Row : Row :=
  normalize_case_row c2Rid "i1" "rev1" "ts1" c2Context ⟨some "c1", true, [⟨some 5⟩], none⟩ "p1"

/-- A rows file holding the one row already ingested for `c2Rid`. -/
def c2Rows : RowsFile := ⟨[.row c2Row], ⟨100, 10⟩⟩

/-- The store after the index file was deleted while the rows file is
intact. -/
def c2Deleted : StoreState := ⟨some c2Rows, none⟩

/-- The store with a legacy index file: well-formed JSON, no recorded
fingerprint, empty run-id list, and an mtime newer than the rows file. -/
def c2Tampered : StoreState := ⟨some c2Rows, some ⟨[], none, 200⟩⟩

def c2Env₂ : IngestEnv := ⟨"i2", ⟨300, 20⟩, 350⟩

/-- Claim C2, counterexample: with a rows file intact and an index file that
records no fingerprint (legacy index, mtime 200 ≥ rows mtime 100), the next
index load does NOT rescan the rows file — `load_index` comes back empty
although a row for `c2Rid` exists — and re-ingesting the same payload
appends a duplicate row instead of deduping, contradicting the claim's "or
no fingerprint was recorded" disjunct. -/
theorem C2_counterexample :
    c2Tampered.rows_file = some c2Rows
    ∧ c2Tampered.index_file = some ⟨[], none, 200⟩
    ∧ c2Rid ∈ scan_row_run_ids c2Rows.lines
    ∧ load_index c2Tampered = []
    ∧ (ingest c2Tampered c2Payload "rev1" "ts1" "p2" c2Env₂).2.deduped = false
    ∧ (ingest c2Tampered c2Payload "rev1" "ts1" "p2" c2Env₂).2.rows_appended = 1
    ∧ storeRowCount c2Tampered = 1
    ∧ storeRowCount (ingest c2Tampered c2Payload "rev1" "ts1" "p2" c2Env₂).1 = 2 := by
  refine ⟨rfl, rfl, by decide, by decide, by decide, by decide, by decide, by decide⟩

/-- Claim C2, witness for the amended theorem: deleting the index file while
the rows file is intact makes the next ingest of the already-ingested
payload dedupe with no rows appended and no state change. -/
theorem C2_witness :
    (ingest c2Deleted c2Payload "rev1" "ts1" "p2" c2Env₂).2.deduped = true
    ∧ (ingest c2Deleted c2Payload "rev1" "ts1" "p2" c2Env₂).2.rows_appended = 0
    ∧ (ingest c2Deleted c2Payload "rev1" "ts1" "p2" c2Env₂).1 = c2Deleted :=
  (C2_index_recovery c2Deleted c2Rows rfl (Or.inl rfl)).2
    c2Payload "rev1" "ts1" "p2" c2Env₂ (by decide)

/-! ## Matrix scheduler: data model (matrix_runner.py) -/

/-- `MatrixArtifact` (`matrix_runner.py` lines 18-22). -/
structure MatrixArtifact where
  revision : String
  commit_timestamp : String
  artifact_path : String
deriving DecidableEq, Repr

/-- `MatrixRunConfig` (`matrix_runner.py` lines 25-39).  The path fields
(`state_path`, `fixtures_dir`, `results_dir`) and `label_prefix` only feed
state persistence and the subprocess-based default executor, neither of
which is part of the pure model: prior state is passed in by value and the
executor is injected, exactly the seam the source exposes for tests. -/
structure MatrixRunConfig where
  suites : List String
  scales : List String
  timeout_seconds : Int
  max_retries : Int
  warmup : Int
  iterations : Int
  max_parallel : Int
  max_load_per_cpu : Option ℚ
  load_check_interval_seconds : ℚ
deriving DecidableEq, Repr

/-- Outcome of one injected-executor invocation: a returned
`(exit_code, message)` pair, a `subprocess.TimeoutExpired`, or any other
exception (`matrix_runner.py` lines 166-179). -/
inductive ExecOutcome where
  | ret (exit_code : Int) (message : String)
  | timeoutExpired
  | raised (message : String)
deriving DecidableEq, Repr

/-- The `try/except` block around one executor call
(`matrix_runner.py` lines 166-179): a timeout becomes exit code 124 with
reason `"timeout after <N>s"`, any other exception becomes exit code 1 with
reason `"executor exception: <msg>"`. -/
def attempt_result (o : ExecOutcome) (timeout_seconds : Int) : Int × String :=
  match o with
  | .ret c m => (c, m)
  | .timeoutExpired => (124, "timeout after " ++ toString timeout_seconds ++ "s")
  | .raised m => (1, "executor exception: " ++ m)

/-- The `(status, attempts, failure_reason)` triple `_execute_case`
returns. -/
structure CaseOutcome where
  status : String
  attempts : Nat
  failure_reason : Option String
deriving DecidableEq, Repr

/-- The retry loop body of `_execute_case` (`matrix_runner.py` lines
160-187), recursing on the remaining attempt budget
(`max_attempts - attempts`).  Besides the returned triple it also collects
the attempt numbers at which the executor was actually invoked. -/
def execute_case_aux (run_exec : Nat → ExecOutcome) (timeout_seconds : Int)
    (attempts : Nat) (status : String) (failure_reason : Option String) :
    Nat → CaseOutcome × List Nat
  | 0 => (⟨status, attempts, failure_reason⟩, [])
  | remaining + 1 =>
      let attempt_number := attempts + 1
      let er := attempt_result (run_exec attempt_number) timeout_seconds
      if er.1 = 0 then (⟨"success", attempt_number, none⟩, [attempt_number])
      else
        let reason := if er.2 = "" then "exit code " ++ toString er.1 else er.2
        let rest := execute_case_aux run_exec timeout_seconds attempt_number
          "failure" (some reason) remaining
        (rest.1, attempt_number :: rest.2)

/-- `_execute_case` (`matrix_runner.py` lines 151-187). -/
def execute_case (run_exec : Nat → ExecOutcome) (timeout_seconds : Int)
    (start_attempts max_attempts : Nat) : CaseOutcome × List Nat :=
  execute_case_aux run_exec timeout_seconds start_attempts "failure"
    (some "unknown failure") (max_attempts - start_attempts)

/-- One cell entry of the persisted state document
(`matrix_runner.py` lines 137-145). -/
structure MatrixCell where
  revision : String
  suite : String
  scale : String
  status : String
  attempts : Nat
  failure_reason : Option String
  updated_at : String
deriving DecidableEq, Repr

/-- The state document's `cases` dict: an insertion-ordered association
list. -/
structure MatrixState where
  cases : List (String × MatrixCell)
deriving DecidableEq, Repr

/-- `cases.get(key)`. -/
def lookupCase : List (String × MatrixCell) → String → Option MatrixCell
  | [], _ => none
  | (k, c) :: rest, key => if k = key then some c else lookupCase rest key

/-- `cases[key] = cell`: replace in place, or append a new key. -/
def updateCase : List (String × MatrixCell) → String → MatrixCell →
    List (String × MatrixCell)
  | [], key, c => [(key, c)]
  | (k, c₀) :: rest, key, c =>
      if k = key then (key, c) :: rest else (k, c₀) :: updateCase rest key c

/-- `SAFE_TOKEN = ^[A-Za-z0-9._-]+$` (`matrix_runner.py` line 15). -/
def safeTokenChar (c : Char) : Bool :=
  c.isAlpha || c.isDigit || c = '.' || c = '_' || c = '-'

/-- Full-match of `SAFE_TOKEN` (non-empty, allowlisted characters only). -/
def safeToken (s : String) : Bool :=
  !s.isEmpty && s.toList.all safeTokenChar

/-- `_validate_tokens` (`matrix_runner.py` lines 234-239). -/
def validate_tokens (values : List String) (field : String) : Except String Unit :=
  match values with
  | [] => .ok ()
  | v :: rest =>
      if safeToken v then validate_tokens rest field
      else .error (field ++ " \x27" ++ v ++
        "\x27 contains invalid characters; allowed [A-Za-z0-9._-]")

/-- `_case_key` (`matrix_runner.py` lines 242-243). -/
def case_key (revision suite scale : String) : String :=
  revision ++ "|" ++ suite ++ "|" ++ scale

/-- The validation block of `run_matrix` (`matrix_runner.py` lines 66-79;
the per-artifact revision check of line 90 happens before any cell is
dispatched and is equivalently performed here, since `pending` is built
completely before the worker pool starts). -/
def validate_run_config (artifacts : List MatrixArtifact)
    (config : MatrixRunConfig) : Except String Unit :=
  if config.timeout_seconds ≤ 0 then .error "timeout_seconds must be > 0"
  else if config.max_retries < 0 then .error "max_retries must be >= 0"
  else if config.warmup < 0 ∨ config.iterations ≤ 0 then
    .error "warmup must be >= 0 and iterations must be > 0"
  else if config.max_parallel ≤ 0 then .error "max_parallel must be > 0"
  else if (match config.max_load_per_cpu with
           | some v => decide (v ≤ 0)
           | none => false) then
    .error "max_load_per_cpu must be > 0 when configured"
  else if config.load_check_interval_seconds ≤ 0 then
    .error "load_check_interval_seconds must be > 0"
  else
    match validate_tokens config.suites "suite" with
    | .error e => .error e
    | .ok _ =>
        match validate_tokens config.scales "scale" with
        | .error e => .error e
        | .ok _ => validate_tokens (artifacts.map (·.revision)) "revision"

/-- The pending-cell list (`matrix_runner.py` lines 89-100): the full
artifacts × suites × scales cross-product, skipping cells already recorded
as `success`; every scheduled cell starts with a fresh attempt counter of
`0` for this invocation. -/
def buildPending (artifacts : List MatrixArtifact) (config : MatrixRunConfig)
    (cases : List (String × MatrixCell)) :
    List (String × MatrixArtifact × String × String × Nat) :=
  artifacts.flatMap fun a =>
    config.suites.flatMap fun suite =>
      config.scales.filterMap fun scale =>
        let key := case_key a.revision suite scale
        match lookupCase cases key with
        | some existing =>
            if existing.status = "success" then none
            else some (key, a, suite, scale, 0)
        | none => some (key, a, suite, scale, 0)

/-- Record of one executor invocation observed during a run. -/
structure Invocation where
  revision : String
  suite : String
  scale : String
  attempt_number : Nat
deriving DecidableEq, Repr

/-- Result of a `run_matrix` call: the final state document and the log of
executor invocations. -/
structure RunOutcome where
  state : MatrixState
  invocations : List Invocation
deriving DecidableEq, Repr

/-- `_execute_case` as called for one pending cell (`matrix_runner.py`
lines 113-122): the executor is closed over the cell's artifact, suite,
scale and the configured timeout; `max_attempts = max_retries + 1`. -/
def pending_case (config : MatrixRunConfig)
    (run_exec : MatrixArtifact → String → String → Nat → Int → ExecOutcome)
    (p : String × MatrixArtifact × String × String × Nat) :
    CaseOutcome × List Nat :=
  execute_case (fun n => run_exec p.2.1 p.2.2.1 p.2.2.2.1 n config.timeout_seconds)
    config.timeout_seconds p.2.2.2.2 (config.max_retries.toNat + 1)

/-- The executor invocations one pending cell gives rise to. -/
def pending_invocations (config : MatrixRunConfig)
    (run_exec : MatrixArtifact → String → String → Nat → Int → ExecOutcome)
    (p : String × MatrixArtifact × String × String × Nat) : List Invocation :=
  (pending_case config run_exec p).2.map
    fun n => ⟨p.2.1.revision, p.2.2.1, p.2.2.2.1, n⟩

/-- One completion (`matrix_runner.py` lines 128-146): write the completed
cell's entry into the state document and log its invocations. -/
def run_pending_step (config : MatrixRunConfig)
    (run_exec : MatrixArtifact → String → String → Nat → Int → ExecOutcome)
    (now : String) (acc : RunOutcome)
    (p : String × MatrixArtifact × String × String × Nat) : RunOutcome :=
  let r := pending_case config run_exec p
  let cell : MatrixCell :=
    ⟨p.2.1.revision, p.2.2.1, p.2.2.2.1, r.1.status, r.1.attempts, r.1.failure_reason, now⟩
  ⟨⟨updateCase acc.state.cases p.1 cell⟩,
    acc.invocations ++ pending_invocations config run_exec p⟩

/-- The scheduling-and-completion phase of `run_matrix`
(`matrix_runner.py` lines 105-148), linearised: each pending cell is
executed by `_execute_case` and its completion writes the cell entry into
the state document (the source serialises completions through a single
critical section; cell entries have distinct keys per (revision, suite,
scale), so any completion order yields this same final document). -/
def run_pending (config : MatrixRunConfig) (state₀ : MatrixState)
    (run_exec : MatrixArtifact → String → String → Nat → Int → ExecOutcome)
    (now : String)
    (pending : List (String × MatrixArtifact × String × String × Nat)) :
    RunOutcome :=
  pending.foldl (run_pending_step config run_exec now) ⟨state₀, []⟩

/-- `run_matrix` (`matrix_runner.py` lines 58-148): validate the
configuration (fatal), then schedule every non-`success` cell of the
cross-product and record each completion. -/
def run_matrix (artifacts : List MatrixArtifact) (config : MatrixRunConfig)
    (state₀ : MatrixState)
    (run_exec : MatrixArtifact → String → String → Nat → Int → ExecOutcome)
    (now : String) : Except String RunOutcome :=
  match validate_run_config artifacts config with
  | .error e => .error e
  | .ok _ =>
      .ok (run_pending config state₀ run_exec now
        (buildPending artifacts config state₀.cases))

/-! ## Matrix scheduler: the bounded worker-pool scheduling loop -/

/-- Abstract state of the scheduling loop (`matrix_runner.py` lines
105-129): the index of the next pending cell and the futures currently in
flight (identified by their pending index). -/
structure SchedulerState where
  next_idx : Nat
  in_flight : List Nat
deriving DecidableEq, Repr

/-- One step of the scheduling loop.  `submit` is the inner `while` body
(line 109): it fires only while `len(in_flight) < config.max_parallel` and
pending cells remain.  `complete` removes any one in-flight future
(`next(concurrent.futures.as_completed(in_flight))`, lines 128-129);
which future completes is nondeterministic. -/
inductive SchedStep (max_parallel pending_count : Nat) :
    SchedulerState → SchedulerState → Prop
  | submit (s : SchedulerState) (h₁ : s.next_idx < pending_count)
      (h₂ : s.in_flight.length < max_parallel) :
      SchedStep max_parallel pending_count s ⟨s.next_idx + 1, s.next_idx :: s.in_flight⟩
  | complete (s : SchedulerState) (i : Nat) (h : i ∈ s.in_flight) :
      SchedStep max_parallel pending_count s ⟨s.next_idx, s.in_flight.erase i⟩

/-- States reachable by the scheduling loop from its start (nothing
submitted, nothing in flight). -/
inductive SchedReachable (max_parallel pending_count : Nat) : SchedulerState → Prop
  | init : SchedReachable max_parallel pending_count ⟨0, []⟩
  | step {s t : SchedulerState} : SchedReachable max_parallel pending_count s →
      SchedStep max_parallel pending_count s t →
      SchedReachable max_parallel pending_count t

/-- Claim C4: throughout any `run_matrix` execution the number of cells in
flight (submitted to the pool but not yet completed) never exceeds
`max_parallel`, for any pending-matrix size, at every step of the
scheduling loop. -/
theorem C4_bounded_parallelism (max_parallel pending_count : Nat)
    (s : SchedulerState)
    (h : SchedReachable max_parallel pending_count s) :
    s.in_flight.length ≤ max_parallel := by
  induction h with
  | init => exact Nat.zero_le _
  | step _ hstep ih =>
      cases hstep with
      | submit h₁ h₂ => simpa using h₂
      | complete i hi =>
          exact le_trans (List.Sublist.length_le (List.erase_sublist i _)) ih

/-- Claim C4, witness: a concrete reachable loop state with `max_parallel
= 2` and three pending cells (two submissions, one completion, one more
submission) keeps at most 2 cells in flight. -/
theorem C4_witness :
    (⟨3, [2, 1]⟩ : SchedulerState).in_flight.length ≤ 2 :=
  C4_bounded_parallelism 2 3 ⟨3, [2, 1]⟩
    (.step
      (.step
        (.step
          (.step .init (.submit ⟨0, []⟩ (by decide) (by decide)))
          (.submit ⟨1, [0]⟩ (by decide) (by decide)))
        (.complete ⟨2, [1, 0]⟩ 0 (by decide)))
      (.submit ⟨2, [1]⟩ (by decide) (by decide)))

/-! ## Matrix scheduler: retry accounting (`_execute_case`) -/

theorem execute_case_aux_invocations (run_exec : Nat → ExecOutcome) (t : Int) :
    ∀ (remaining attempts : Nat) (st : String) (fr : Option String),
      ∃ k, k ≤ remaining ∧
        (execute_case_aux run_exec t attempts st fr remaining).2 =
          List.range' (attempts + 1) k
  | 0, attempts, st, fr => ⟨0, Nat.le_refl 0, rfl⟩
  | remaining + 1, attempts, st, fr => by
      simp only [execute_case_aux]
      by_cases h : (attempt_result (run_exec (attempts + 1)) t).1 = 0
      · exact ⟨1, by omega, by simp [h]⟩
      · obtain ⟨k, hk, heq⟩ := execute_case_aux_invocations run_exec t remaining
          (attempts + 1) "failure"
          (some (if (attempt_result (run_exec (attempts + 1)) t).2 = "" then
            "exit code " ++ toString (attempt_result (run_exec (attempts + 1)) t).1
            else (attempt_result (run_exec (attempts + 1)) t).2))
        refine ⟨k + 1, by omega, ?_⟩
        simp only [if_neg h, heq, List.range'_succ]

theorem execute_case_aux_all_fail (run_exec : Nat → ExecOutcome) (t : Int) :
    ∀ (remaining attempts : Nat) (fr : Option String),
      (∀ n, attempts < n → n ≤ attempts + remaining →
        (attempt_result (run_exec n) t).1 ≠ 0) →
      (execute_case_aux run_exec t attempts "failure" fr remaining).1.status = "failure"
      ∧ (execute_case_aux run_exec t attempts "failure" fr remaining).1.attempts =
          attempts + remaining
  | 0, attempts, fr, _ => ⟨rfl, rfl⟩
  | remaining + 1, attempts, fr, hfail => by
      have h1 : (attempt_result (run_exec (attempts + 1)) t).1 ≠ 0 :=
        hfail (attempts + 1) (by omega) (by omega)
      simp only [execute_case_aux, if_neg h1]
      have := execute_case_aux_all_fail run_exec t remaining (attempts + 1)
        (some (if (attempt_result (run_exec (attempts + 1)) t).2 = "" then
          "exit code " ++ toString (attempt_result (run_exec (attempts + 1)) t).1
          else (attempt_result (run_exec (attempts + 1)) t).2))
        (fun n hn hn' => hfail n (by omega) (by omega))
      exact ⟨this.1, by rw [this.2]; omega⟩

theorem execute_case_aux_first_success (run_exec : Nat → ExecOutcome) (t : Int) :
    ∀ (remaining attempts k : Nat) (st : String) (fr : Option String),
      attempts < k → k ≤ attempts + remaining →
      (∀ n, attempts < n → n < k → (attempt_result (run_exec n) t).1 ≠ 0) →
      (attempt_result (run_exec k) t).1 = 0 →
      execute_case_aux run_exec t attempts st fr remaining =
        (⟨"success", k, none⟩, List.range' (attempts + 1) (k - attempts))
  | 0, attempts, k, st, fr, hlt, hle, _, _ => absurd hle (by omega)
  | remaining + 1, attempts, k, st, fr, hlt, hle, hfail, hsucc => by
      by_cases hk : k = attempts + 1
      · subst hk
        simp only [execute_case_aux, if_pos hsucc]
        have : attempts + 1 - attempts = 1 := by omega
        rw [this]
        simp [List.range'_succ]
      · have h1 : (attempt_result (run_exec (attempts + 1)) t).1 ≠ 0 :=
          hfail (attempts + 1) (by omega) (by omega)
        simp only [execute_case_aux, if_neg h1]
        rw [execute_case_aux_first_success run_exec t remaining (attempts + 1) k
          "failure" _ (by omega) (by omega)
          (fun n hn hn' => hfail n (by omega) hn') hsucc]
        have h2 : k - attempts = (k - (attempts + 1)) + 1 := by omega
        rw [h2, List.range'_succ]

/-- Claim C5: a cell whose executor fails (non-zero exit, timeout, or
exception) on every attempt is recorded with `attempts = max_retries + 1`
and `status = "failure"`; a cell whose executor first succeeds (exit code
0) on attempt `k ≤ max_retries + 1` is recorded with `attempts = k`,
`status = "success"` and a null failure reason, the executor having been
invoked exactly on attempts `1..k` and never after. -/
theorem C5_attempt_accounting (run_exec : Nat → ExecOutcome) (t : Int)
    (max_retries k : Nat) :
    ((∀ n, 1 ≤ n → n ≤ max_retries + 1 → (attempt_result (run_exec n) t).1 ≠ 0) →
      (execute_case run_exec t 0 (max_retries + 1)).1.status = "failure"
      ∧ (execute_case run_exec t 0 (max_retries + 1)).1.attempts = max_retries + 1)
    ∧ (1 ≤ k → k ≤ max_retries + 1 →
      (∀ n, 1 ≤ n → n < k → (attempt_result (run_exec n) t).1 ≠ 0) →
      (attempt_result (run_exec k) t).1 = 0 →
      (execute_case run_exec t 0 (max_retries + 1)).1 =
        (⟨"success", k, none⟩ : CaseOutcome)
      ∧ (execute_case run_exec t 0 (max_retries + 1)).2 = List.range' 1 k) := by
  constructor
  · intro hfail
    have := execute_case_aux_all_fail run_exec t (max_retries + 1) 0
      (some "unknown failure") (fun n hn hn' => hfail n hn (by omega))
    exact ⟨this.1, by rw [execute_case]; simpa using this.2⟩
  · intro h1 h2 hfail hsucc
    have := execute_case_aux_first_success run_exec t (max_retries + 1) 0 k
      "failure" (some "unknown failure") h1 (by omega)
      (fun n hn hn' => hfail n hn hn') hsucc
    rw [execute_case]
    simp [this]

/-- An executor that fails on attempt 1 and succeeds on attempt 2. -/
def c5Exec : Nat → ExecOutcome := fun n =>
  if n = 2 then .ret 0 "" else .ret 1 "boom"

/-- Claim C5, witness: with `max_retries = 2` the flaky `c5Exec` is
recorded as success with `attempts = 2`, having been invoked exactly on
attempts 1 and 2. -/
theorem C5_witness :
    (execute_case c5Exec 5 0 3).1 = (⟨"success", 2, none⟩ : CaseOutcome)
    ∧ (execute_case c5Exec 5 0 3).2 = List.range' 1 2 :=
  (C5_attempt_accounting c5Exec 5 2 2).2 (by decide) (by decide)
    (fun n h1 h2 => by
      have hn : n = 1 := by omega
      subst hn
      decide)
    (by decide)

/-! ## Matrix scheduler: configuration validation and totality -/

theorem validate_tokens_ok (values : List String) (field : String)
    (h : ∀ v ∈ values, safeToken v = true) :
    validate_tokens values field = .ok () := by
  induction values with
  | nil => rfl
  | cons v rest ih =>
      rw [validate_tokens, if_pos (h v (List.mem_cons_self v rest))]
      exact ih fun w hw => h w (List.mem_cons_of_mem v hw)

theorem validate_run_config_ok (artifacts : List MatrixArtifact)
    (config : MatrixRunConfig)
    (h1 : 0 < config.timeout_seconds) (h2 : 0 ≤ config.max_retries)
    (h3 : 0 ≤ config.warmup) (h4 : 0 < config.iterations)
    (h5 : 0 < config.max_parallel)
    (h6 : ∀ v, config.max_load_per_cpu = some v → 0 < v)
    (h7 : 0 < config.load_check_interval_seconds)
    (h8 : ∀ s ∈ config.suites, safeToken s = true)
    (h9 : ∀ s ∈ config.scales, safeToken s = true)
    (h10 : ∀ a ∈ artifacts, safeToken a.revision = true) :
    validate_run_config artifacts config = .ok () := by
  have hload : (match config.max_load_per_cpu with
      | some v => decide (v ≤ 0)
      | none => false) = false := by
    cases hm : config.max_load_per_cpu with
    | none => rfl
    | some v =>
        simp only [decide_eq_false_iff_not, not_le]
        exact h6 v hm
  rw [validate_run_config, if_neg (by omega), if_neg (by omega), if_neg (by omega),
    if_neg (by omega), hload]
  rw [if_neg (by simp), if_neg (not_le.mpr h7)]
  rw [validate_tokens_ok config.suites "suite" h8,
    validate_tokens_ok config.scales "scale" h9]
  exact validate_tokens_ok _ "revision" fun v hv => by
    obtain ⟨a, ha, rfl⟩ := List.mem_map.mp hv
    exact h10 a ha

/-- Claim C6: with a valid configuration, `run_matrix` never raises due to
a per-cell failure — it returns a state for every executor behaviour,
including executors that raise or time out; a timeout is recorded as
failure reason `"timeout after <N>s"` and any other executor exception as
`"executor exception: <msg>"` (exit code 1) rather than propagating, and
only configuration-validation errors are ever returned as errors. -/
theorem C6_per_cell_failures_not_fatal (artifacts : List MatrixArtifact)
    (config : MatrixRunConfig) (state₀ : MatrixState) (now : String)
    (h1 : 0 < config.timeout_seconds) (h2 : 0 ≤ config.max_retries)
    (h3 : 0 ≤ config.warmup) (h4 : 0 < config.iterations)
    (h5 : 0 < config.max_parallel)
    (h6 : ∀ v, config.max_load_per_cpu = some v → 0 < v)
    (h7 : 0 < config.load_check_interval_seconds)
    (h8 : ∀ s ∈ config.suites, safeToken s = true)
    (h9 : ∀ s ∈ config.scales, safeToken s = true)
    (h10 : ∀ a ∈ artifacts, safeToken a.revision = true) :
    (∀ run_exec, run_matrix artifacts config state₀ run_exec now =
      .ok (run_pending config state₀ run_exec now
        (buildPending artifacts config state₀.cases)))
    ∧ (∀ t : Int, attempt_result .timeoutExpired t =
        (124, "timeout after " ++ toString t ++ "s"))
    ∧ (∀ (t : Int) (m : String), attempt_result (.raised m) t =
        (1, "executor exception: " ++ m)) := by
  refine ⟨fun run_exec => ?_, fun t => rfl, fun t m => rfl⟩
  rw [run_matrix, validate_run_config_ok artifacts config
    h1 h2 h3 h4 h5 h6 h7 h8 h9 h10]

/-- Claim C6, witness: a one-artifact, one-suite, one-scale matrix whose
executor always times out returns a state (no raised error) recording the
cell as failed with reason "timeout after 7s". -/
theorem C6_witness :
    run_matrix [⟨"r1", "t1", "bin"⟩]
      ⟨["su"], ["sc"], 7, 1, 1, 5, 2, none, 5⟩ ⟨[]⟩
      (fun _ _ _ _ _ => .timeoutExpired) "now" =
      .ok (run_pending ⟨["su"], ["sc"], 7, 1, 1, 5, 2, none, 5⟩ ⟨[]⟩
        (fun _ _ _ _ _ => .timeoutExpired) "now"
        (buildPending [⟨"r1", "t1", "bin"⟩]
          ⟨["su"], ["sc"], 7, 1, 1, 5, 2, none, 5⟩ []))
    ∧ lookupCase (run_pending ⟨["su"], ["sc"], 7, 1, 1, 5, 2, none, 5⟩ ⟨[]⟩
        (fun _ _ _ _ _ => .timeoutExpired) "now"
        (buildPending [⟨"r1", "t1", "bin"⟩]
          ⟨["su"], ["sc"], 7, 1, 1, 5, 2, none, 5⟩ [])).state.cases
        (case_key "r1" "su" "sc") =
      some ⟨"r1", "su", "sc", "failure", 2, some "timeout after 7s", "now"⟩ :=
  ⟨(C6_per_cell_failures_not_fatal [⟨"r1", "t1", "bin"⟩]
      ⟨["su"], ["sc"], 7, 1, 1, 5, 2, none, 5⟩ ⟨[]⟩ "now"
      (by decide) (by decide) (by decide) (by decide) (by decide)
      (fun v hv => by simp at hv) (by decide)
      (by decide) (by decide) (by decide)).1
    (fun _ _ _ _ _ => .timeoutExpired),
   by decide⟩

/-! ## Matrix scheduler: resumability (success cells are skipped) -/

theorem lookupCase_updateCase_ne (cases : List (String × MatrixCell))
    (k : String) (c : MatrixCell) (key : String) (h : k ≠ key) :
    lookupCase (updateCase cases k c) key = lookupCase cases key := by
  induction cases with
  | nil => simp [updateCase, lookupCase, h]
  | cons hd tl ih =>
      obtain ⟨k₀, c₀⟩ := hd
      by_cases hk : k₀ = k
      · subst hk
        simp [updateCase, lookupCase, h]
      · simp only [updateCase, if_neg hk, lookupCase]
        by_cases hk' : k₀ = key
        · simp [hk']
        · simp [hk', ih]

theorem run_pending_foldl_state (config : MatrixRunConfig)
    (run_exec : MatrixArtifact → String → String → Nat → Int → ExecOutcome)
    (now key : String) :
    ∀ (pending : List (String × MatrixArtifact × String × String × Nat))
      (acc : RunOutcome), (∀ p ∈ pending, p.1 ≠ key) →
      lookupCase ((pending.foldl (run_pending_step config run_exec now) acc)).state.cases
          key =
        lookupCase acc.state.cases key
  | [], acc, _ => rfl
  | p :: ps, acc, h => by
      rw [List.foldl_cons,
        run_pending_foldl_state config run_exec now key ps _ fun q hq =>
          h q (List.mem_cons_of_mem p hq)]
      exact lookupCase_updateCase_ne _ _ _ _ (h p (List.mem_cons_self p ps))

theorem run_pending_foldl_invocations (config : MatrixRunConfig)
    (run_exec : MatrixArtifact → String → String → Nat → Int → ExecOutcome)
    (now : String) :
    ∀ (pending : List (String × MatrixArtifact × String × String × Nat))
      (acc : RunOutcome),
      (pending.foldl (run_pending_step config run_exec now) acc).invocations =
        acc.invocations ++ pending.flatMap (pending_invocations config run_exec)
  | [], acc => by simp
  | p :: ps, acc => by
      rw [List.foldl_cons, run_pending_foldl_invocations config run_exec now ps _]
      simp [run_pending_step]

theorem mem_buildPending (artifacts : List MatrixArtifact)
    (config : MatrixRunConfig) (cases : List (String × MatrixCell))
    (p : String × MatrixArtifact × String × String × Nat)
    (hp : p ∈ buildPending artifacts config cases) :
    p.1 = case_key p.2.1.revision p.2.2.1 p.2.2.2.1
    ∧ (∀ c, lookupCase cases p.1 = some c → c.status ≠ "success")
    ∧ p.2.2.2.2 = 0 := by
  simp only [buildPending, List.mem_flatMap, List.mem_filterMap] at hp
  obtain ⟨a, ha, suite, hs, scale, hsc, hmk⟩ := hp
  revert hmk
  cases hlk : lookupCase cases (case_key a.revision suite scale) with
  | none =>
      intro hmk
      cases hmk
      refine ⟨rfl, fun c hc => ?_, rfl⟩
      rw [hlk] at hc
      cases hc
  | some existing =>
      intro hmk
      simp only [] at hmk
      by_cases hst : existing.status = "success"
      · rw [if_pos hst] at hmk
        cases hmk
      · rw [if_neg hst] at hmk
        cases hmk
        refine ⟨rfl, fun c hc => ?_, rfl⟩
        rw [hlk] at hc
        cases hc
        exact hst

theorem run_matrix_ok_inv (artifacts : List MatrixArtifact)
    (config : MatrixRunConfig) (state₀ : MatrixState)
    (run_exec : MatrixArtifact → String → String → Nat → Int → ExecOutcome)
    (now : String) (out : RunOutcome)
    (hrun : run_matrix artifacts config state₀ run_exec now = .ok out) :
    out = run_pending config state₀ run_exec now
      (buildPending artifacts config state₀.cases) := by
  rw [run_matrix] at hrun
  cases hv : validate_run_config artifacts config with
  | error e => rw [hv] at hrun; cases hrun
  | ok u => rw [hv] at hrun; cases hrun; rfl

/-- Claim C3: a cell whose loaded state entry has status `"success"` is
never executed again — `run_matrix` never invokes the executor for it and
leaves its state entry unchanged; every executor invocation belongs to a
cell not marked success in the loaded state, and attempt numbers within
this invocation of `run_matrix` are fresh (they start at 1 and are
contiguous, regardless of any attempts recorded by earlier runs). -/
theorem C3_success_cells_never_rerun (artifacts : List MatrixArtifact)
    (config : MatrixRunConfig) (state₀ : MatrixState)
    (run_exec : MatrixArtifact → String → String → Nat → Int → ExecOutcome)
    (now : String) (out : RunOutcome) (key : String) (cell : MatrixCell)
    (hrun : run_matrix artifacts config state₀ run_exec now = .ok out)
    (hcell : lookupCase state₀.cases key = some cell)
    (hsucc : cell.status = "success") :
    lookupCase out.state.cases key = some cell
    ∧ (∀ inv ∈ out.invocations, case_key inv.revision inv.suite inv.scale ≠ key)
    ∧ (∀ inv ∈ out.invocations, ∀ c,
        lookupCase state₀.cases (case_key inv.revision inv.suite inv.scale) = some c →
          c.status ≠ "success")
    ∧ (∀ inv ∈ out.invocations, 1 ≤ inv.attempt_number ∧
        (inv.attempt_number = 1 ∨
          (⟨inv.revision, inv.suite, inv.scale, inv.attempt_number - 1⟩ : Invocation) ∈
            out.invocations)) := by
  have hout := run_matrix_ok_inv artifacts config state₀ run_exec now out hrun
  subst hout
  set pending := buildPending artifacts config state₀.cases with hpend
  have hkeys : ∀ p ∈ pending, p.1 ≠ key := by
    intro p hp hkey
    have hfacts := mem_buildPending artifacts config state₀.cases p hp
    rw [hkey] at hfacts
    exact hfacts.2.1 cell hcell hsucc
  have hinvs : (run_pending config state₀ run_exec now pending).invocations =
      pending.flatMap (pending_invocations config run_exec) := by
    rw [run_pending, run_pending_foldl_invocations]
    rfl
  have hmeminv : ∀ inv ∈ (run_pending config state₀ run_exec now pending).invocations,
      ∃ p ∈ pending, ∃ n ∈ (pending_case config run_exec p).2,
        inv = ⟨p.2.1.revision, p.2.2.1, p.2.2.2.1, n⟩ := by
    intro inv hinv
    rw [hinvs] at hinv
    obtain ⟨p, hp, hmem⟩ := List.mem_flatMap.mp hinv
    obtain ⟨n, hn, heq⟩ := List.mem_map.mp hmem
    exact ⟨p, hp, n, hn, heq.symm⟩
  refine ⟨?_, ?_, ?_, ?_⟩
  · rw [run_pending, run_pending_foldl_state config run_exec now key pending _ hkeys]
    exact hcell
  · intro inv hinv hkey
    obtain ⟨p, hp, n, hn, rfl⟩ := hmeminv inv hinv
    have hfacts := mem_buildPending artifacts config state₀.cases p hp
    exact hkeys p hp (hfacts.1.trans hkey)
  · intro inv hinv c hc
    obtain ⟨p, hp, n, hn, rfl⟩ := hmeminv inv hinv
    have hfacts := mem_buildPending artifacts config state₀.cases p hp
    rw [← hfacts.1] at hc
    exact hfacts.2.1 c hc
  · intro inv hinv
    obtain ⟨p, hp, n, hn, rfl⟩ := hmeminv inv hinv
    have hfacts := mem_buildPending artifacts config state₀.cases p hp
    obtain ⟨k, hk, hrange⟩ := execute_case_aux_invocations
      (fun m => run_exec p.2.1 p.2.2.1 p.2.2.2.1 m config.timeout_seconds)
      config.timeout_seconds (config.max_retries.toNat + 1 - p.2.2.2.2) p.2.2.2.2
      "failure" (some "unknown failure")
    have hcase : (pending_case config run_exec p).2 =
        List.range' (p.2.2.2.2 + 1) k := by
      rw [pending_case, execute_case, hrange]
    rw [hcase] at hn
    rw [hfacts.2.2] at hn
    have hmem := List.mem_range'_1.mp hn
    refine ⟨hmem.1, ?_⟩
    by_cases hone : n = 1
    · exact Or.inl hone
    · refine Or.inr ?_
      have hmem' : n - 1 ∈ List.range' 1 k := by
        rw [List.mem_range'_1]
        omega
      rw [hinvs]
      refine List.mem_flatMap.mpr ⟨p, hp, ?_⟩
      refine List.mem_map.mpr ⟨n - 1, ?_, rfl⟩
      rw [hcase, hfacts.2.2]
      exact hmem'

def c3Cell : MatrixCell := ⟨"r1", "su", "sc", "success", 1, none, "t0"⟩

def c3State : MatrixState := ⟨[(case_key "r1" "su" "sc", c3Cell)]⟩

def c3Config : MatrixRunConfig := ⟨["su"], ["sc"], 7, 1, 1, 5, 2, none, 5⟩

def c3Exec : MatrixArtifact → String → String → Nat → Int → ExecOutcome :=
  fun _ _ _ _ _ => .ret 0 ""

/-- Claim C3, witness: a one-cell matrix whose only cell is already
`success` in loaded state runs zero executor invocations and leaves the
entry intact. -/
theorem C3_witness :
    lookupCase (⟨c3State, []⟩ : RunOutcome).state.cases (case_key "r1" "su" "sc") =
      some c3Cell
    ∧ (∀ inv ∈ (⟨c3State, []⟩ : RunOutcome).invocations,
        case_key inv.revision inv.suite inv.scale ≠ case_key "r1" "su" "sc")
    ∧ (∀ inv ∈ (⟨c3State, []⟩ : RunOutcome).invocations, ∀ c,
        lookupCase c3State.cases (case_key inv.revision inv.suite inv.scale) = some c →
          c.status ≠ "success")
    ∧ (∀ inv ∈ (⟨c3State, []⟩ : RunOutcome).invocations, 1 ≤ inv.attempt_number ∧
        (inv.attempt_number = 1 ∨
          (⟨inv.revision, inv.suite, inv.scale, inv.attempt_number - 1⟩ : Invocation) ∈
            (⟨c3State, []⟩ : RunOutcome).invocations)) :=
  C3_success_cells_never_rerun [⟨"r1", "t1", "bin"⟩] c3Config c3State c3Exec "now"
    ⟨c3State, []⟩ (case_key "r1" "su" "sc") c3Cell rfl rfl rfl

/-! ## Trend analyzer: data model and row loading (reporting.py) -/

/-- `_load_rows` (`reporting.py` lines 216-228): tolerant read of the rows
file — blank lines skipped, JSON-malformed lines counted in
`invalid_rows` and excluded, an absent file yields `([], 0)`. -/
def load_rows (rows_file : Option (List RowLine)) : List Row × Nat :=
  match rows_file with
  | none => ([], 0)
  | some lines =>
      (lines.filterMap fun l =>
          match l with
          | .row r => some r
          | _ => none,
        lines.countP fun l =>
          match l with
          | .malformed => true
          | _ => false)

/-- Is this line counted in `invalid_rows`? -/
def isInvalidLine (l : RowLine) : Bool :=
  match l with
  | .malformed => true
  | _ => false

/-- The parsed row of a line, if any. -/
def lineRow (l : RowLine) : Option Row :=
  match l with
  | .row r => some r
  | _ => none

/-- The series grouping key (`reporting.py` lines 50-54).  The rows the
store writes always carry the `suite`/`scale`/`case` keys, so the Python
`row.get(k, "unknown")` default never fires for them; a JSON `null` value
becomes `str(None) = "None"`. -/
def row_series_key (r : Row) : String × String × String :=
  (r.suite.getD "None", r.scale.getD "None", r.caseName.getD "None")

/-- Rows admitted to series formation (`reporting.py` lines 44-49): a
truthy success flag and a non-null median. -/
def eligible_rows (rows : List Row) : List Row :=
  rows.filter fun r => r.success && r.median_ms.isSome

/-- The time key used to order a series (`reporting.py` line 63):
`row.get("benchmark_created_at") or row.get("ingested_at") or ""` with
Python falsy-chaining on `None`/empty strings; the typed row always
carries `ingested_at`. -/
def series_sort_key (r : Row) : String :=
  let b := r.benchmark_created_at.getD ""
  if b = "" then r.ingested_at else b

/-- Stable insertion into a list sorted by `series_sort_key` (the element
goes after every earlier element whose key is `≤` its own, matching
Python's stable `sorted`). -/
def insertRowByKey (x : Row) : List Row → List Row
  | [] => [x]
  | y :: ys =>
      if series_sort_key y < series_sort_key x then y :: insertRowByKey x ys
      else x :: y :: ys

/-- `sorted(series, key=...)`: stable sort by the series time key. -/
def sortRowsByKey : List Row → List Row
  | [] => []
  | x :: xs => insertRowByKey x (sortRowsByKey xs)

/-- Strict lexicographic order on grouping keys (Python tuple `<`). -/
def keyLt (a b : String × String × String) : Bool :=
  a.1 < b.1 || (a.1 = b.1 && (a.2.1 < b.2.1 || (a.2.1 = b.2.1 && a.2.2 < b.2.2)))

/-- Insertion into a `keyLt`-sorted key list. -/
def insertKey (x : String × String × String) :
    List (String × String × String) → List (String × String × String)
  | [] => [x]
  | y :: ys => if keyLt y x then y :: insertKey x ys else x :: y :: ys

/-- Ascending sort of grouping keys (`sorted(grouped.items())`). -/
def sortKeys : List (String × String × String) → List (String × String × String)
  | [] => []
  | x :: xs => insertKey x (sortKeys xs)

/-- First-occurrence deduplication of grouping keys (dict key order). -/
def dedupKeys : List (String × String × String) → List (String × String × String)
  | [] => []
  | k :: ks => k :: (dedupKeys ks).filter fun k2 => decide (k2 ≠ k)

/-- The grouped series in iteration order (`reporting.py` lines 43-55 and
61): distinct keys of eligible rows, sorted, each with its rows in file
order. -/
def grouped_series (rows : List Row) :
    List ((String × String × String) × List Row) :=
  let eligible := eligible_rows rows
  (sortKeys (dedupKeys (eligible.map row_series_key))).map fun k =>
    (k, eligible.filter fun r => decide (row_series_key r = k))

/-! ## Trend analyzer: Mann-Whitney U with tie correction -/

/-- `_extract_samples` (`reporting.py` lines 152-159): the row's raw
sample list, else its median as a one-point sample, else nothing. -/
def extract_samples (r : Row) : List ℚ :=
  match r.sample_values_ms with
  | some l => l
  | none =>
      match r.median_ms with
      | none => []
      | some m => [m]

/-- `_combine_samples` (`reporting.py` lines 162-166). -/
def combine_samples (rows : List Row) : List ℚ :=
  rows.flatMap extract_samples

/-- Stable insertion by sample value into the tagged combined list
(`combined.sort(key=lambda item: item[0])`). -/
def insertPair (x : ℚ × Nat) : List (ℚ × Nat) → List (ℚ × Nat)
  | [] => [x]
  | y :: ys => if y.1 < x.1 then y :: insertPair x ys else x :: y :: ys

/-- Stable sort of the tagged combined sample list. -/
def sortPairs : List (ℚ × Nat) → List (ℚ × Nat)
  | [] => []
  | x :: xs => insertPair x (sortPairs xs)

/-- The combined list: latest samples tagged 1, baseline samples tagged 0,
sorted by value (`reporting.py` lines 179-180). -/
def mw_combined (baseline_samples latest_samples : List ℚ) : List (ℚ × Nat) :=
  sortPairs (latest_samples.map (fun v => (v, 1)) ++
    baseline_samples.map (fun v => (v, 0)))

/-- Maximal runs of equal values in the sorted combined list (the
`while` grouping loop, `reporting.py` lines 184-196). -/
def chunkByValue : List (ℚ × Nat) → List (List (ℚ × Nat))
  | [] => []
  | x :: xs =>
      match chunkByValue xs with
      | [] => [[x]]
      | [] :: gs => [x] :: gs
      | (y :: g) :: gs =>
          if x.1 = y.1 then (x :: y :: g) :: gs else [x] :: (y :: g) :: gs

/-- Tie groups of the combined list. -/
def mw_groups (baseline_samples latest_samples : List ℚ) : List (List (ℚ × Nat)) :=
  chunkByValue (mw_combined baseline_samples latest_samples)

/-- The mid-rank sum over latest-tagged elements: each group spanning
0-based positions `[start, stop)` contributes the average rank
`(start + 1 + stop) / 2` once per tagged-1 member
(`reporting.py` lines 185-196). -/
def rank_contributions : Nat → List (List (ℚ × Nat)) → ℚ
  | _, [] => 0
  | start, g :: gs =>
      let stop := start + g.length
      let avg_rank : ℚ := ((start : ℚ) + 1 + (stop : ℚ)) / 2
      avg_rank * (g.countP (fun pr => pr.2 == 1) : ℚ) +
        rank_contributions stop gs

/-- `rank_sum_latest`. -/
def mw_rank_sum_latest (baseline_samples latest_samples : List ℚ) : ℚ :=
  rank_contributions 0 (mw_groups baseline_samples latest_samples)

/-- `tie_sum = Σ (g³ − g)` over tie-group sizes (`reporting.py` line 200). -/
def mw_tie_sum (baseline_samples latest_samples : List ℚ) : ℚ :=
  ((mw_groups baseline_samples latest_samples).map
    (fun g => ((g.length : ℚ)) ^ 3 - (g.length : ℚ))).sum

/-- The tie-corrected normal-approximation variance
(`reporting.py` line 201):
`(n1*n2/12) * ((N+1) - tie_sum/(N*(N-1)))` with `N = n1+n2`. -/
def mw_variance (baseline_samples latest_samples : List ℚ) : ℚ :=
  let n1 : ℚ := latest_samples.length
  let n2 : ℚ := baseline_samples.length
  let total : ℚ := n1 + n2
  (n1 * n2 / 12) *
    ((total + 1) - mw_tie_sum baseline_samples latest_samples / (total * (total - 1)))

/-- `_mann_whitney_one_sided_p_value` (`reporting.py` lines 169-213).
`math.sqrt` and `math.erf` are external float routines, passed in as
parameters `sqrtQ` and `erf`. -/
def mann_whitney_one_sided_p_value (erf sqrtQ : ℚ → ℚ)
    (baseline_samples latest_samples : List ℚ) : Option ℚ :=
  let n1 := latest_samples.length
  let n2 := baseline_samples.length
  if n1 < 2 ∨ n2 < 2 then none
  else
    let u_latest := mw_rank_sum_latest baseline_samples latest_samples -
      ((n1 : ℚ) * ((n1 : ℚ) + 1) / 2)
    let variance := mw_variance baseline_samples latest_samples
    if variance ≤ 0 then none
    else
      let mean_u := (n1 : ℚ) * (n2 : ℚ) / 2
      let z := (u_latest - mean_u) / sqrtQ variance
      let cdf := (1 / 2 : ℚ) * (1 + erf (z / sqrtQ 2))
      let p_value := 1 - cdf
      if p_value < 0 then some 0
      else if 1 < p_value then some 1
      else some p_value

/-! ## Trend analyzer: classification and series processing -/

/-- The `change_pct` value of a series: absent, a finite percentage, or
`float("inf")` (`reporting.py` lines 70, 87, 99, 106). -/
inductive PctOpt where
  | nonePct
  | pct (q : ℚ)
  | infPct
deriving DecidableEq, Repr

/-- The regression status string (`reporting.py` lines 90-93 and 101-104):
plain `"regression"` without significance testing, else suffixed by the
significance verdict. -/
def regression_status (significance_method : String) (significant : Option Bool) :
    String :=
  if significance_method = "none" then "regression"
  else if significant.getD false then "regression-significant"
  else "regression-not-significant"

/-- The classification block (`reporting.py` lines 85-107), as a function
of the computed baseline median, latest median, threshold and significance
verdict.  Returns `(status, is_regression, change_pct)`. -/
def classify_series (baseline_median : Option ℚ) (latest threshold : ℚ)
    (significance_method : String) (significant : Option Bool) :
    String × Bool × PctOpt :=
  match baseline_median with
  | none => ("insufficient-baseline", false, .nonePct)
  | some bm =>
      if 0 < bm then
        let change_pct := ((latest - bm) / bm) * 100
        if bm * (1 + threshold) < latest then
          (regression_status significance_method significant, true, .pct change_pct)
        else if latest < bm * (1 - threshold) then
          ("improvement", false, .pct change_pct)
        else ("stable", false, .pct change_pct)
      else if 0 < latest then
        (regression_status significance_method significant, true, .infPct)
      else ("stable", false, .pct 0)

/-- The per-series record built by the report loop
(`reporting.py` lines 109-120), plus the loop-local `is_regression`
flag. -/
structure SeriesItem where
  suite : String
  scale : String
  caseName : String
  points : List ℚ
  latest : ℚ
  baseline_median : Option ℚ
  change_pct : PctOpt
  status : String
  p_value : Option ℚ
  significant : Option Bool
  is_regression : Bool
deriving DecidableEq, Repr

/-- Configuration of `generate_trend_reports`
(`reporting.py` lines 11-19; the store/output paths are replaced by the
rows-file value and the returned report strings). -/
structure TrendConfig where
  baseline_window : Int
  regression_threshold : ℚ
  significance_method : String
  significance_alpha : ℚ
deriving DecidableEq, Repr

/-- One iteration of the series loop (`reporting.py` lines 61-121):
order the series by time key, take the latest median, the up-to-`window`
rows immediately preceding the latest as baseline, optionally run the
Mann-Whitney test, classify, and build the series record.  The group list
coming from `grouped_series` is never empty; the empty case returns
arbitrary values on the unreachable paths. -/
def process_series (cfg : TrendConfig) (erf sqrtQ : ℚ → ℚ)
    (k : String × String × String) (series : List Row) : SeriesItem :=
  let ordered := sortRowsByKey series
  let medians := ordered.map fun r => r.median_ms.getD 0
  let latest := medians.getLast?.getD 0
  let pre := ordered.dropLast
  let baseline_rows := pre.drop (pre.length - cfg.baseline_window.toNat)
  let baseline_values := baseline_rows.filterMap (·.median_ms)
  let baseline_median :=
    if baseline_values.isEmpty then none else some (median baseline_values)
  let p_value :=
    if cfg.significance_method ≠ "none" then
      mann_whitney_one_sided_p_value erf sqrtQ (combine_samples baseline_rows)
        (match ordered.getLast? with
         | some r => extract_samples r
         | none => [])
    else none
  let significant :=
    if cfg.significance_method ≠ "none" then
      some (p_value.isSome && decide (p_value.getD 0 ≤ cfg.significance_alpha))
    else none
  let c := classify_series baseline_median latest cfg.regression_threshold
    cfg.significance_method significant
  ⟨k.1, k.2.1, k.2.2, medians, latest, baseline_median, c.2.2, c.1, p_value,
    significant, c.2.1⟩

/-- All series records of a report run, in sorted key order. -/
def series_items (cfg : TrendConfig) (erf sqrtQ : ℚ → ℚ) (rows : List Row) :
    List SeriesItem :=
  (grouped_series rows).map fun g => process_series cfg erf sqrtQ g.1 g.2

/-! ## Trend analyzer: report rendering -/

/-- External float string formatting (`"{:.2f}"` and friends), passed in
as parameters like `math.erf`.  `fmtDelta` renders
`float(change_pct or 0.0)` with `"{:+.2f}"` (including `inf`). -/
structure FloatFmt where
  fmt2 : ℚ → String
  fmtDelta : PctOpt → String
  fmt6 : ℚ → String
  fmt3 : ℚ → String
  fmtPct : ℚ → String

/-- `float(item["change_pct"] or 0.0)`: a missing percentage renders as
zero. -/
def change_pct_display (c : PctOpt) : PctOpt :=
  match c with
  | .nonePct => .pct 0
  | .pct q => .pct q
  | .infPct => .infPct

/-- `_markdown_summary` (`reporting.py` lines 231-293). -/
def markdown_summary (fmt : FloatFmt) (series_stats regressions : List SeriesItem)
    (significance_method : String) (invalid_rows : Nat) : String :=
  let lines₀ : List String :=
    ["# Longitudinal Benchmark Summary", "",
     "- Total series: " ++ toString series_stats.length,
     "- Regressions: " ++ toString regressions.length]
  let lines₁ :=
    if invalid_rows ≠ 0 then
      lines₀ ++ ["- Invalid rows skipped: " ++ toString invalid_rows]
    else lines₀
  let lines₂ := lines₁ ++ ["", "## Regression Highlights"]
  if regressions.isEmpty then
    String.intercalate "\n"
      (lines₂ ++ ["", "No regressions detected in the latest window.", ""])
  else
    let header :=
      if significance_method = "none" then
        ["| suite | scale | case | baseline median (ms) | latest (ms) | delta |",
         "| --- | --- | --- | ---: | ---: | ---: |"]
      else
        ["| suite | scale | case | baseline median (ms) | latest (ms) | delta | p-value | significant |",
         "| --- | --- | --- | ---: | ---: | ---: | ---: | --- |"]
    let tableRows := regressions.map fun item =>
      let common := "| " ++ item.suite ++ " | " ++ item.scale ++ " | " ++
        item.caseName ++ " | " ++ fmt.fmt2 (item.baseline_median.getD 0) ++ " | " ++
        fmt.fmt2 item.latest ++ " | " ++
        fmt.fmtDelta (change_pct_display item.change_pct) ++ "% |"
      if significance_method = "none" then common
      else
        common ++ " " ++
          (match item.p_value with
           | some p => fmt.fmt6 p
           | none => "n/a") ++ " | " ++
          (if item.significant.getD false then "yes" else "no") ++ " |"
    String.intercalate "\n" (lines₂ ++ [""] ++ header ++ tableRows ++ [""])

/-- `html.escape` with default quoting. -/
def htmlEscapeChar (c : Char) : String :=
  if c = '&' then "&amp;"
  else if c = '<' then "&lt;"
  else if c = '>' then "&gt;"
  else if c = '"' then "&quot;"
  else if c = '\x27' then "&#x27;"
  else String.singleton c

/-- `html.escape` applied to a whole string. -/
def htmlEscape (s : String) : String :=
  String.join (s.toList.map htmlEscapeChar)

/-- `_sparkline_svg` (`reporting.py` lines 369-391). -/
def sparkline_svg (fmt : FloatFmt) (values : List ℚ) : String :=
  match values with
  | [] =>
      "<svg viewBox=\x270 0 300 90\x27><text x=\x274\x27 y=\x2745\x27>no data</text></svg>"
  | v :: vs =>
      let width : ℚ := 300
      let height : ℚ := 90
      let x_step : ℚ := width / (max ((v :: vs).length - 1) 1 : Nat)
      let min_v := minQ v vs
      let max_v := maxQ v vs
      let value_range : ℚ := max (max_v - min_v) 1
      let pts := (v :: vs).enum.map fun pr =>
        let x : ℚ := (pr.1 : ℚ) * x_step
        let normalized : ℚ := (pr.2 - min_v) / value_range
        let y : ℚ := height - (normalized * (height - 10)) - 5
        fmt.fmt2 x ++ "," ++ fmt.fmt2 y
      "<svg viewBox=\x270 0 300 90\x27 role=\x27img\x27 aria-label=\x27trend chart\x27>" ++
        "<polyline fill=\x27none\x27 stroke=\x27#145a8d\x27 stroke-width=\x272.5\x27 points=\x27" ++
        String.intercalate " " pts ++ "\x27 />" ++ "</svg>"

/-- One series card of the HTML report (`reporting.py` lines 306-325). -/
def series_card (fmt : FloatFmt) (significance_method : String)
    (item : SeriesItem) : String :=
  let p_line :=
    if significance_method ≠ "none" then
      match item.p_value with
      | none => "<p>p-value: n/a</p>"
      | some p => "<p>p-value: " ++ fmt.fmt6 p ++ "</p>"
    else ""
  "<section class=\x27card\x27>" ++
    "<h2>" ++ htmlEscape item.suite ++ " / " ++ htmlEscape item.scale ++ " / " ++
    htmlEscape item.caseName ++ "</h2>" ++
    "<p>Status: <strong>" ++ htmlEscape item.status ++ "</strong></p>" ++
    "<p>Latest: " ++ fmt.fmt2 item.latest ++ " ms</p>" ++
    p_line ++ sparkline_svg fmt item.points ++ "</section>"

/-- `_html_report` (`reporting.py` lines 296-366); CSS braces are written
with `\x7b`/`\x7d` escapes. -/
def html_report (fmt : FloatFmt) (series_stats regressions : List SeriesItem)
    (significant_regressions : Nat) (regression_threshold : ℚ)
    (significance_method : String) (significance_alpha : ℚ)
    (invalid_rows : Nat) : String :=
  let cards := String.join (series_stats.map (series_card fmt significance_method))
  let significance_meta :=
    if significance_method ≠ "none" then
      " | Significant regressions: " ++ toString significant_regressions ++
        " | Method: " ++ significance_method ++ " (alpha=" ++
        fmt.fmt3 significance_alpha ++ ")"
    else ""
  let invalid_rows_meta :=
    if invalid_rows ≠ 0 then " | Invalid rows skipped: " ++ toString invalid_rows
    else ""
  "<!doctype html>\n<html lang=\"en\">\n<head>\n  <meta charset=\"utf-8\" />\n" ++
    "  <title>Longitudinal Benchmark Trends</title>\n  <style>\n" ++
    "    :root \x7b\n      --bg: #f5f7fb;\n      --surface: #ffffff;\n" ++
    "      --ink: #1b2432;\n      --muted: #5f6b7a;\n      --accent: #145a8d;\n" ++
    "      --warn: #b24020;\n    \x7d\n" ++
    "    body \x7b background: linear-gradient(160deg, #eff4fb, #f9f3eb); color: var(--ink); font-family: \"Iowan Old Style\", \"Palatino Linotype\", serif; margin: 0; padding: 24px; \x7d\n" ++
    "    h1 \x7b margin-top: 0; \x7d\n" ++
    "    .grid \x7b display: grid; grid-template-columns: repeat(auto-fit, minmax(320px, 1fr)); gap: 16px; \x7d\n" ++
    "    .card \x7b background: var(--surface); border-radius: 12px; padding: 16px; box-shadow: 0 4px 18px rgba(20, 90, 141, 0.08); \x7d\n" ++
    "    .meta \x7b color: var(--muted); \x7d\n" ++
    "    svg \x7b width: 100%; height: 90px; \x7d\n" ++
    "  </style>\n</head>\n<body>\n  <h1>Longitudinal Benchmark Trends</h1>\n" ++
    "  <p class=\"meta\">Series: " ++ toString series_stats.length ++
    " | Regressions: " ++ toString regressions.length ++ significance_meta ++
    invalid_rows_meta ++ " | Threshold: " ++ fmt.fmtPct regression_threshold ++
    "</p>\n  <div class=\"grid\">\n    " ++ cards ++
    "\n  </div>\n</body>\n</html>\n"

/-- The Markdown written for an empty or absent store
(`reporting.py` line 32). -/
def no_rows_markdown : String :=
  "# Longitudinal Benchmark Summary\n\nNo longitudinal rows found.\n"

/-- `_empty_html` (`reporting.py` lines 394-400). -/
def no_rows_html : String :=
  "<!doctype html>\n<html lang=\"en\">\n<head><meta charset=\"utf-8\" />" ++
    "<title>Longitudinal Benchmark Trends</title></head>\n" ++
    "<body><h1>Longitudinal Benchmark Trends</h1>" ++
    "<p>No longitudinal rows found.</p></body>\n</html>\n"

/-- The summary object `generate_trend_reports` returns
(`reporting.py` lines 144-149). -/
structure TrendSummary where
  total_series : Nat
  regressions : Nat
  significant_regressions : Nat
  invalid_rows : Nat
deriving DecidableEq, Repr

/-- A report run's outputs: the summary and the two rendered documents. -/
structure GenerateResult where
  summary : TrendSummary
  markdown : String
  html : String
deriving DecidableEq, Repr

/-- `generate_trend_reports` (`reporting.py` lines 11-149): validate the
configuration (fatal), read the rows tolerantly, and either emit the
no-rows documents or group, classify and render every series. -/
def generate_trend_reports (rows_file : Option (List RowLine)) (cfg : TrendConfig)
    (erf sqrtQ : ℚ → ℚ) (fmt : FloatFmt) : Except String GenerateResult :=
  if cfg.baseline_window ≤ 0 then .error "baseline_window must be > 0"
  else if cfg.regression_threshold < 0 then .error "regression_threshold must be >= 0"
  else if cfg.significance_method ≠ "none" ∧ cfg.significance_method ≠ "mann-whitney" then
    .error "significance_method must be one of: none, mann-whitney"
  else if ¬ (0 < cfg.significance_alpha ∧ cfg.significance_alpha ≤ 1) then
    .error "significance_alpha must be in (0, 1]"
  else
    let lr := load_rows rows_file
    if lr.1.isEmpty then
      .ok ⟨⟨0, 0, 0, lr.2⟩, no_rows_markdown, no_rows_html⟩
    else
      let items := series_items cfg erf sqrtQ lr.1
      let regressions := items.filter (·.is_regression)
      let significant_regressions := (items.filter fun i =>
        i.is_regression &&
          (decide (cfg.significance_method = "none") || i.significant.getD false)).length
      .ok ⟨⟨items.length, regressions.length, significant_regressions, lr.2⟩,
        markdown_summary fmt items regressions cfg.significance_method lr.2,
        html_report fmt items regressions significant_regressions
          cfg.regression_threshold cfg.significance_method cfg.significance_alpha lr.2⟩

/-! ## Trend analyzer: theorems -/

/-- Claim C7: a series whose baseline median is 0 and whose latest median
is strictly positive is always classified as a regression — its
`is_regression` flag is set (so `generate` counts it in the regressions
total), its `change_pct` is the infinity marker (no division is
performed), and its status is the regression status for the configured
significance mode, whether or not significance testing is enabled. -/
theorem C7_zero_baseline_regression :
    (∀ (cfg : TrendConfig) (erf sqrtQ : ℚ → ℚ) (k : String × String × String)
      (series : List Row),
      (process_series cfg erf sqrtQ k series).baseline_median = some 0 →
      0 < (process_series cfg erf sqrtQ k series).latest →
      (process_series cfg erf sqrtQ k series).is_regression = true
      ∧ (process_series cfg erf sqrtQ k series).change_pct = PctOpt.infPct
      ∧ (process_series cfg erf sqrtQ k series).status =
          regression_status cfg.significance_method
            (process_series cfg erf sqrtQ k series).significant)
    ∧ (∀ (rows_file : Option (List RowLine)) (cfg : TrendConfig)
      (erf sqrtQ : ℚ → ℚ) (fmt : FloatFmt) (out : GenerateResult),
      generate_trend_reports rows_file cfg erf sqrtQ fmt = .ok out →
      out.summary.regressions =
        ((series_items cfg erf sqrtQ (load_rows rows_file).1).filter
          (·.is_regression)).length) := by
  constructor
  · intro cfg erf sqrtQ k series hbm hlat
    simp only [process_series] at hbm hlat ⊢
    rw [hbm]
    simp only [classify_series]
    rw [if_neg (lt_irrefl 0), if_pos hlat]
    exact ⟨rfl, rfl, rfl⟩
  · intro rows_file cfg erf sqrtQ fmt out hout
    rw [generate_trend_reports] at hout
    split at hout
    · cases hout
    split at hout
    · cases hout
    split at hout
    · cases hout
    split at hout
    · cases hout
    dsimp only at hout
    split at hout
    · cases hout
      rename_i hempty
      rw [List.isEmpty_iff] at hempty
      rw [hempty]
      rfl
    · cases hout
      rfl

/-- Constant-zero stand-in for the external `math.erf` / `math.sqrt`. -/
def qZero : ℚ → ℚ := fun _ => 0

/-- Formatting functions that render every number as the empty string. -/
def trivFmt : FloatFmt := ⟨fun _ => "", fun _ => "", fun _ => "", fun _ => "", fun _ => ""⟩

/-- A concrete successful series row with the given creation key, median
and samples. -/
def mkSeriesRow (createdAt : String) (med : ℚ) (samples : List ℚ) : Row :=
  { schema_version := 1
    run_id := runIdOf "r" "t" emptyContext ⟨emptyContext, []⟩
    ingested_at := "i"
    revision := "r"
    revision_commit_timestamp := "t"
    benchmark_created_at := some createdAt
    label := none
    git_sha := none
    host := none
    suite := some "su"
    scale := some "sc"
    iterations := none
    warmup := none
    caseName := some "ca"
    success := true
    failure_reason := none
    sample_count := samples.length
    sample_values_ms := some samples
    best_ms := none
    min_ms := none
    max_ms := none
    mean_ms := none
    median_ms := some med
    image_version := none
    hardening_profile_id := none
    hardening_profile_sha256 := none
    cpu_model := none
    cpu_microcode := none
    kernel := none
    boot_params := none
    cpu_steal_pct := none
    numa_topology := none
    egress_policy_sha256 := none
    run_mode := none
    maintenance_window_id := none
    source_result_path := "p" }

def c7cfg : TrendConfig := ⟨1, 1/10, "none", 1/2⟩

def c7rows : List Row := [mkSeriesRow "a" 0 [0], mkSeriesRow "b" 5 [5]]

/-- Claim C7, witness: a two-point series with baseline median 0 and
latest 5 is classified as a regression with an infinite delta; the
regressions total of a report equals the count of regression series. -/
theorem C7_witness :
    (process_series c7cfg qZero qZero ("su", "sc", "ca") c7rows).is_regression = true
    ∧ (process_series c7cfg qZero qZero ("su", "sc", "ca") c7rows).change_pct =
        PctOpt.infPct
    ∧ (process_series c7cfg qZero qZero ("su", "sc", "ca") c7rows).status =
        regression_status c7cfg.significance_method
          (process_series c7cfg qZero qZero ("su", "sc", "ca") c7rows).significant
    ∧ (⟨⟨0, 0, 0, 0⟩, no_rows_markdown, no_rows_html⟩ : GenerateResult).summary.regressions =
        ((series_items c7cfg qZero qZero (load_rows none).1).filter
          (·.is_regression)).length := by
  have h1 := C7_zero_baseline_regression.1 c7cfg qZero qZero ("su", "sc", "ca") c7rows
    (by with_unfolding_all decide) (by with_unfolding_all decide)
  exact ⟨h1.1, h1.2.1, h1.2.2,
    C7_zero_baseline_regression.2 none c7cfg qZero qZero trivFmt _
      (by with_unfolding_all rfl)⟩

/-- Claim C8: the Mann-Whitney helper emits a p-value only when the latest
sample list and the pooled baseline sample list each hold at least two
values, abstains (returns no p-value) when either side is smaller, and
whenever the series loop obtains a p-value `p` it marks the series
significant exactly when `p ≤ significance_alpha`. -/
theorem C8_significance_contract (erf sqrtQ : ℚ → ℚ)
    (baseline_samples latest_samples : List ℚ) (p : ℚ) (cfg : TrendConfig)
    (k : String × String × String) (series : List Row) :
    (mann_whitney_one_sided_p_value erf sqrtQ baseline_samples latest_samples = some p →
      2 ≤ latest_samples.length ∧ 2 ≤ baseline_samples.length)
    ∧ (latest_samples.length < 2 ∨ baseline_samples.length < 2 →
      mann_whitney_one_sided_p_value erf sqrtQ baseline_samples latest_samples = none)
    ∧ ((process_series cfg erf sqrtQ k series).p_value = some p →
      (process_series cfg erf sqrtQ k series).significant =
        some (decide (p ≤ cfg.significance_alpha))) := by
  refine ⟨?_, ?_, ?_⟩
  · intro hp
    by_cases h : latest_samples.length < 2 ∨ baseline_samples.length < 2
    · rw [mann_whitney_one_sided_p_value, if_pos h] at hp
      cases hp
    · omega
  · intro h
    rw [mann_whitney_one_sided_p_value, if_pos h]
  · intro hp
    simp only [process_series] at hp ⊢
    by_cases hm : cfg.significance_method ≠ "none"
    · rw [if_pos hm] at hp
      rw [if_pos hm, if_pos hm, hp]
      simp
    · rw [if_neg hm] at hp
      cases hp

def c8cfg : TrendConfig := ⟨1, 1/10, "mann-whitney", 1/2⟩

def c8rows : List Row :=
  [mkSeriesRow "a" (3/2) [1, 2], mkSeriesRow "b" (7/2) [3, 4]]

/-- Claim C8, witness: with two samples on each side a p-value is emitted
(here 1/2 under the zero stand-ins for erf/sqrt) and the series is marked
significant exactly by comparison with alpha; with a single latest sample
the test abstains. -/
theorem C8_witness :
    (2 ≤ ([3, 4] : List ℚ).length ∧ 2 ≤ ([1, 2] : List ℚ).length)
    ∧ mann_whitney_one_sided_p_value qZero qZero [1, 2] [3] = none
    ∧ (process_series c8cfg qZero qZero ("su", "sc", "ca") c8rows).significant =
        some (decide ((1 / 2 : ℚ) ≤ c8cfg.significance_alpha)) :=
  ⟨(C8_significance_contract qZero qZero [1, 2] [3, 4] (1/2) c8cfg
      ("su", "sc", "ca") c8rows).1 (by with_unfolding_all decide),
   (C8_significance_contract qZero qZero [1, 2] [3] (1/2) c8cfg
      ("su", "sc", "ca") c8rows).2.1 (by decide),
   (C8_significance_contract qZero qZero [1, 2] [3, 4] (1/2) c8cfg
      ("su", "sc", "ca") c8rows).2.2 (by with_unfolding_all decide)⟩

/-- Claim C9: report generation never aborts on bad rows — every
JSON-malformed line is counted in `invalid_rows` and excluded from series
formation (only parsed rows survive loading), and on an empty or absent
store a validly configured `generate` returns all-zero totals while still
producing the fixed Markdown and HTML documents that state no rows were
found. -/
theorem C9_tolerant_report_generation (lines : List RowLine)
    (rows_file : Option (List RowLine)) (cfg : TrendConfig)
    (erf sqrtQ : ℚ → ℚ) (fmt : FloatFmt)
    (hbw : 0 < cfg.baseline_window) (hth : 0 ≤ cfg.regression_threshold)
    (hm : cfg.significance_method = "none" ∨ cfg.significance_method = "mann-whitney")
    (ha1 : 0 < cfg.significance_alpha) (ha2 : cfg.significance_alpha ≤ 1)
    (hempty : (load_rows rows_file).1 = []) :
    ((load_rows (some lines)).2 = lines.countP isInvalidLine
      ∧ (load_rows (some lines)).1 = lines.filterMap lineRow)
    ∧ generate_trend_reports rows_file cfg erf sqrtQ fmt =
        .ok ⟨⟨0, 0, 0, (load_rows rows_file).2⟩, no_rows_markdown, no_rows_html⟩ := by
  refine ⟨⟨rfl, rfl⟩, ?_⟩
  rw [generate_trend_reports, if_neg (by omega), if_neg (not_lt.mpr hth),
    if_neg (fun h => hm.elim h.1 h.2), if_neg (not_not_intro ⟨ha1, ha2⟩)]
  dsimp only
  rw [hempty]
  rfl

def c9cfg : TrendConfig := ⟨2, 1/20, "none", 1/2⟩

/-- Claim C9, witness: a rows file holding one malformed and one blank
line loads as zero rows with one invalid line counted, and `generate`
returns zero totals with the no-rows Markdown and HTML documents. -/
theorem C9_witness :
    ((load_rows (some [RowLine.malformed, RowLine.blank])).2 =
        [RowLine.malformed, RowLine.blank].countP isInvalidLine
      ∧ (load_rows (some [RowLine.malformed, RowLine.blank])).1 =
        [RowLine.malformed, RowLine.blank].filterMap lineRow)
    ∧ generate_trend_reports (some [RowLine.malformed, RowLine.blank]) c9cfg
        qZero qZero trivFmt =
      .ok ⟨⟨0, 0, 0, (load_rows (some [RowLine.malformed, RowLine.blank])).2⟩,
        no_rows_markdown, no_rows_html⟩ :=
  C9_tolerant_report_generation [RowLine.malformed, RowLine.blank]
    (some [RowLine.malformed, RowLine.blank]) c9cfg qZero qZero trivFmt
    (by decide) (by with_unfolding_all decide) (Or.inl rfl)
    (by with_unfolding_all decide) (by with_unfolding_all decide) rfl

/-- Claim C10: the Mann-Whitney helper is total and well-formed — for any
erf/sqrt routines and any sample lists it returns either no p-value or a
p-value clamped into [0, 1], and it returns no p-value whenever the
tie-corrected variance is ≤ 0 (for example when every pooled sample value
is identical), so the division by `sqrt(variance)` is always guarded. -/
theorem C10_p_value_wellformed (erf sqrtQ : ℚ → ℚ)
    (baseline_samples latest_samples : List ℚ) :
    (mann_whitney_one_sided_p_value erf sqrtQ baseline_samples latest_samples = none
      ∨ ∃ p, mann_whitney_one_sided_p_value erf sqrtQ baseline_samples latest_samples =
          some p ∧ 0 ≤ p ∧ p ≤ 1)
    ∧ (mw_variance baseline_samples latest_samples ≤ 0 →
      mann_whitney_one_sided_p_value erf sqrtQ baseline_samples latest_samples = none) := by
  constructor
  · rw [mann_whitney_one_sided_p_value]
    split
    · exact Or.inl rfl
    · dsimp only
      split
      · exact Or.inl rfl
      · split
        · exact Or.inr ⟨0, rfl, le_refl 0, by norm_num⟩
        · split
          · exact Or.inr ⟨1, rfl, by norm_num, le_refl 1⟩
          · rename_i hnotlt hnotgt
            exact Or.inr ⟨_, rfl, not_lt.mp hnotlt, not_lt.mp hnotgt⟩
  · intro h
    rw [mann_whitney_one_sided_p_value]
    split
    · rfl
    · dsimp only
      rw [if_pos h]

/-- Claim C10, witness: with every pooled sample identical the variance is
0 and the helper abstains. -/
theorem C10_witness :
    mann_whitney_one_sided_p_value qZero qZero [5, 5] [5, 5] = none :=
  (C10_p_value_wellformed qZero qZero [5, 5] [5, 5]).2 (by with_unfolding_all decide)

end DeltaBench
